import Mathlib

/-!
Verification development for `process_sp3.py` (konstantin-gm/sp3).

The Python source is shallowly embedded here:
* Python strings are modelled as `List Char` (`PyStr`);
* Python `float` values are idealised as exact rationals `ℚ`;
* Python `datetime` objects are the validated record `Datetime`, compared
  lexicographically field by field, exactly as Python compares datetimes;
* exceptions that escape to the per-file `except` handler of
  `parse_sp3_file` are modelled with `Except Unit`;
* the in-place numpy mutations of `detrend` are modelled with an explicit
  store of array buffers (`Store`), so that aliasing and framing are
  faithfully represented.
-/

namespace SP3

/-- Python `str` modelled as its character sequence. -/
abbrev PyStr := List Char

/-- `line.startswith(c)` for a single-character prefix. -/
def startsWithChar (s : PyStr) (c : Char) : Bool :=
  match s with
  | [] => false
  | c' :: _ => c' == c

/-- Auxiliary worker for `pySplit`, accumulating the current word reversed. -/
def pySplitAux : PyStr → PyStr → List PyStr
  | [], acc => if acc.isEmpty then [] else [acc.reverse]
  | c :: rest, acc =>
    if c.isWhitespace then
      if acc.isEmpty then pySplitAux rest []
      else acc.reverse :: pySplitAux rest []
    else pySplitAux rest (c :: acc)

/-- Python `line.split()`: split on runs of whitespace, dropping empty parts. -/
def pySplit (s : PyStr) : List PyStr := pySplitAux s []

/-- Python `s.strip()` on the surrounding-whitespace forms accepted by
`int()` / `float()`. -/
def pyStrip (s : PyStr) : PyStr :=
  ((s.dropWhile Char.isWhitespace).reverse.dropWhile Char.isWhitespace).reverse

/-- Value of a nonempty all-digit character list; `none` otherwise. -/
def digitsVal (cs : List Char) : Option Nat :=
  if cs.isEmpty then none
  else if cs.all Char.isDigit then
    some (cs.foldl (fun a c => a * 10 + (c.toNat - 48)) 0)
  else none

/-- Python `int(s)` on decimal literals: optional surrounding whitespace,
optional sign, digits.  Returns `none` exactly when Python raises
`ValueError`.  (The rarely used underscore separators and non-decimal bases
are outside the model.) -/
def pyInt (s : PyStr) : Option Int :=
  match pyStrip s with
  | '+' :: rest => (digitsVal rest).map Int.ofNat
  | '-' :: rest => (digitsVal rest).map (fun n => -(Int.ofNat n))
  | cs => (digitsVal cs).map Int.ofNat

/-- Digit-list value as a natural number, digits assumed checked. -/
def digitsNat (cs : List Char) : Nat :=
  cs.foldl (fun a c => a * 10 + (c.toNat - 48)) 0

/-- Unsigned decimal mantissa `digits [. digits]` / `. digits` as the pair
(integer value of all mantissa digits, number of fractional digits);
`none` when malformed. -/
def parseMantissa (cs : List Char) : Option (Nat × Nat) :=
  let ip := cs.takeWhile Char.isDigit
  let rest := cs.dropWhile Char.isDigit
  match rest with
  | [] => if ip.isEmpty then none else some (digitsNat ip, 0)
  | '.' :: fp =>
    if fp.all Char.isDigit then
      if ip.isEmpty && fp.isEmpty then none
      else some (digitsNat ip * 10 ^ fp.length + digitsNat fp, fp.length)
    else none
  | _ => none

/-- Signed exponent digits after `e`/`E`. -/
def parseExponent (cs : List Char) : Option Int :=
  match cs with
  | '+' :: rest => (digitsVal rest).map Int.ofNat
  | '-' :: rest => (digitsVal rest).map (fun n => -(Int.ofNat n))
  | _ => (digitsVal cs).map Int.ofNat

/-- The exact rational `m / 10^f × 10^e`, assembled with `mkRat` (so that it
evaluates by kernel reduction). -/
def decimalToRat (m : Nat) (f : Nat) (e : Int) : ℚ :=
  if f ≤ e then mkRat (m * 10 ^ (e - f).toNat) 1
  else mkRat m (10 ^ (Int.ofNat f - e).toNat)

/-- Unsigned Python float literal `mantissa [(e|E) exp]` as an exact
rational. -/
def pyFloatNoSign (cs : List Char) : Option ℚ :=
  let m := cs.takeWhile (fun c => !(c == 'e' || c == 'E'))
  let e := cs.dropWhile (fun c => !(c == 'e' || c == 'E'))
  match e with
  | [] => (parseMantissa m).map fun p => decimalToRat p.1 p.2 0
  | _ :: ecs => do
    let p ← parseMantissa m
    let ev ← parseExponent ecs
    some (decimalToRat p.1 p.2 ev)

/-- Python `float(s)` on decimal literals (exact-rational idealisation of the
binary double).  Returns `none` exactly when Python raises `ValueError`.
(`inf`/`nan` spellings are outside the model.) -/
def pyFloat (s : PyStr) : Option ℚ :=
  match pyStrip s with
  | '+' :: rest => pyFloatNoSign rest
  | '-' :: rest => (pyFloatNoSign rest).map Neg.neg
  | cs => pyFloatNoSign cs

/-- Python `int(x)` on a float: truncation toward zero (in CPython exactly
the truncated quotient of numerator by denominator). -/
def ratTrunc (q : ℚ) : Int :=
  q.num.tdiv q.den

end SP3

namespace SP3

/-- Python `datetime.datetime` restricted to the fields the program uses
(microseconds are always zero here). -/
structure Datetime where
  year : Int
  month : Int
  day : Int
  hour : Int
  minute : Int
  second : Int
deriving DecidableEq, Repr

/-- Gregorian leap-year predicate (as in `datetime`). -/
def isLeap (y : Int) : Bool :=
  y % 4 == 0 && (y % 100 != 0 || y % 400 == 0)

/-- Days in a month, validated range `1 ≤ m ≤ 12`. -/
def daysInMonth (y m : Int) : Int :=
  ([31, if isLeap y then 29 else 28, 31, 30, 31, 30,
    31, 31, 30, 31, 30, 31].getD (m.toNat - 1) 0 : Int)

/-- `datetime(year, month, day, hour, minute, second)`: `none` exactly when
the constructor raises `ValueError` (out-of-range field). -/
def mkDatetime (y mo d h mi s : Int) : Option Datetime :=
  if 1 ≤ y ∧ y ≤ 9999 ∧ 1 ≤ mo ∧ mo ≤ 12 ∧ 1 ≤ d ∧ d ≤ daysInMonth y mo ∧
     0 ≤ h ∧ h < 24 ∧ 0 ≤ mi ∧ mi < 60 ∧ 0 ≤ s ∧ s < 60 then
    some ⟨y, mo, d, h, mi, s⟩
  else none

/-- The Python `datetime` comparison: lexicographic on the fields. -/
def Datetime.ltb (a b : Datetime) : Bool :=
  if a.year != b.year then a.year < b.year
  else if a.month != b.month then a.month < b.month
  else if a.day != b.day then a.day < b.day
  else if a.hour != b.hour then a.hour < b.hour
  else if a.minute != b.minute then a.minute < b.minute
  else a.second < b.second

/-- Cumulative day count before month `m` (1-based), as in the CPython
`datetime` module. -/
def daysBeforeMonth (leap : Bool) (m : Int) : Int :=
  ([0, 31, 59, 90, 120, 151, 181, 212, 243, 273, 304, 334].getD
    (m.toNat - 1) 0 : Int) + (if leap && m > 2 then 1 else 0)

/-- Proleptic-Gregorian ordinal of a (validated) date, as in
`datetime.date.toordinal`. -/
def toOrdinal (y m d : Int) : Int :=
  365 * (y - 1) + (y - 1) / 4 - (y - 1) / 100 + (y - 1) / 400 +
    daysBeforeMonth (isLeap y) m + d

/-- Absolute seconds of a datetime; differences of this function are
`(t - t0).total_seconds()`. -/
def Datetime.toSeconds (t : Datetime) : ℚ :=
  ((toOrdinal t.year t.month t.day) * 86400 +
    t.hour * 3600 + t.minute * 60 + t.second : Int)

end SP3

namespace SP3

/-! ### `SP3Processor.parse_sp3_file` (source lines 273-310) -/

/-- The per-satellite dictionary value holding the `time` and `offset` lists. -/
structure SatSeries where
  time : List Datetime
  offset : List ℚ
deriving DecidableEq, Repr

/-- The `data` dictionary of `parse_sp3_file`, keyed by satellite id, in
insertion order (as Python dicts are). -/
abbrev SatDict := List (PyStr × SatSeries)

/-- Insertion of an empty entry when `sat_id not in data`, followed by
appending `current_epoch` and `clock_offset` to the entry lists. -/
def dictAppend : SatDict → PyStr → Datetime → ℚ → SatDict
  | [], k, t, o => [(k, ⟨[t], [o]⟩)]
  | (k', s) :: rest, k, t, o =>
    if k' = k then (k', ⟨s.time ++ [t], s.offset ++ [o]⟩) :: rest
    else (k', s) :: dictAppend rest k t o

/-- The local state of the parsing loop in `parse_sp3_file`. -/
structure ParseState where
  data : SatDict
  current : Datetime
  prev : Datetime
deriving DecidableEq, Repr

/-- Numeric decoding of an epoch-header (`*`) line:
`int(parts[1..5])`, `float(parts[6])`, then
`datetime(year, month, day, hour, minute, int(second))`.
`none` when any of these raises (missing part, malformed numeral, or
out-of-range date field). -/
def parseEpochHeader (line : PyStr) : Option Datetime := do
  let parts := pySplit line
  let y ← (parts[1]?).bind pyInt
  let mo ← (parts[2]?).bind pyInt
  let d ← (parts[3]?).bind pyInt
  let h ← (parts[4]?).bind pyInt
  let mi ← (parts[5]?).bind pyInt
  let s ← (parts[6]?).bind pyFloat
  mkDatetime y mo d h mi (ratTrunc s)

/-- One iteration of the `for line in f` loop in `parse_sp3_file`.
`Except.error ()` models an exception escaping to the per-file handler. -/
def processLine (st : ParseState) (line : PyStr) : Except Unit ParseState :=
  if startsWithChar line '*' then
    -- prev_epoch = current_epoch; current_epoch = datetime(...)
    match parseEpochHeader line with
    | some dt => .ok ⟨st.data, dt, st.current⟩
    | none => .error ()
  else if startsWithChar line 'P' && Datetime.ltb st.prev st.current then
    let parts := pySplit line
    let sat_id := (parts.headD []).drop 1
    if parts.length ≥ 5 then
      match (parts[4]?).bind pyFloat with
      | some v =>
        -- clock_offset = float(parts[4])*1e-6, appended to data[sat_id]
        .ok ⟨dictAppend st.data sat_id st.current (v * (1 / 1000000)),
             st.current, st.prev⟩
      | none => .ok st  -- except ValueError: continue
    else .ok st
  else .ok st

/-- `SP3Processor.parse_sp3_file`.  The input file is either its line list or
an I/O error (`open` raising).  On success the Python function returns the
tuple `(data, current_epoch)`; on any caught exception it shows a warning
and returns the single value `{}` — the `Sum` distinguishes the two return
shapes. -/
def parse_sp3_file (file : Except PyStr (List PyStr)) (prev_epoch : Datetime) :
    Sum (SatDict × Datetime) SatDict :=
  match file with
  | .error _ => .inr []
  | .ok lines =>
    match lines.foldlM processLine ⟨[], prev_epoch, prev_epoch⟩ with
    | .ok st => .inl (st.data, st.current)
    | .error _ => .inr []

/-! ### The file loop of `SP3Processor.process_files` (source lines 593-604) -/

/-- `datetime(1980, 1, 6)`, the initial `prev_epoch` of `process_files`. -/
def epoch1980 : Datetime := ⟨1980, 1, 6, 0, 0, 0⟩

/-- Model of `data[sat][time].extend(...)` and `data[sat][offset].extend(...)`. -/
def dictExtendEntry (d : SatDict) (k : PyStr) (s : SatSeries) : SatDict :=
  d.map fun p =>
    if p.1 = k then (p.1, ⟨p.2.time ++ s.time, p.2.offset ++ s.offset⟩) else p

/-- `for sat in sat_list: if sat in file_data: ... extend ...`. -/
def collectStep (satList : List PyStr) (acc : SatDict) (fd : SatDict) :
    SatDict :=
  satList.foldl (fun acc sat =>
    match fd.lookup sat with
    | some s => dictExtendEntry acc sat s
    | none => acc) acc

/-- The `for file_date, file_path in sp3_files` loop.  The unpacking
`file_data, prev_epoch = self.parse_sp3_file(...)` raises an uncaught
`ValueError` when `parse_sp3_file` returned the empty dict `{}` (zero
values to unpack into two names); `none` models that crash of
`process_files`. -/
def collectGo (satList : List PyStr) :
    List (Except PyStr (List PyStr)) → SatDict → Datetime →
    Option (SatDict × Datetime)
  | [], acc, prev => some (acc, prev)
  | f :: rest, acc, prev =>
    match parse_sp3_file f prev with
    | .inr _ => none
    | .inl (fd, newPrev) => collectGo satList rest (collectStep satList acc fd) newPrev

/-- The data-collection phase of `process_files`: initialise
an empty series for every satellite in `sat_list`, set
`prev_epoch = datetime(1980, 1, 6)`, then fold over the files. -/
def collectFiles (files : List (Except PyStr (List PyStr)))
    (satList : List PyStr) : Option (SatDict × Datetime) :=
  collectGo satList files (satList.map fun s => (s, ⟨[], []⟩)) epoch1980

end SP3

namespace SP3

/-! ### The gap-stitching ("glue") loop of `process_files` (lines 619-628)

The loop walks the copy `tmp` of the original offsets, accumulates each
over-threshold increment into `delta`, and subtracts the running `delta`
from every element after the first.  `prev` below is always the *original*
previous value (read from `tmp`), exactly as in the source. -/

/-- Worker for `glue`: `delta` is the running correction, `prev` the
original previous sample.  When the increment `y - prev` exceeds the
threshold in absolute value it is first accumulated into `delta`; the
element is then corrected by the updated `delta`. -/
def glueAux (T : ℚ) : ℚ → ℚ → List ℚ → List ℚ
  | _, _, [] => []
  | delta, prev, y :: rest =>
    if |y - prev| > T then
      (y - (delta + (y - prev))) :: glueAux T (delta + (y - prev)) y rest
    else
      (y - delta) :: glueAux T delta y rest

/-- The gap-stitching loop on one offset series, threshold `T` in the stored
unit (`phaselim * 1e-12` in the source). -/
def glue (T : ℚ) : List ℚ → List ℚ
  | [] => []
  | x0 :: rest => x0 :: glueAux T 0 x0 rest

/-- Sum of the over-threshold increments among the first `i` consecutive
increments of `x` (the accumulated `delta` before writing element `i`). -/
def jumpSum (T : ℚ) (x : List ℚ) (i : ℕ) : ℚ :=
  ((List.range i).map fun j =>
    if |x.getD (j + 1) 0 - x.getD j 0| > T then
      x.getD (j + 1) 0 - x.getD j 0
    else 0).sum

/-! ### `SP3Processor.median_outlier_filter` (lines 336-381) -/

/-- Ascending insertion of one rational (helper for `sortQ`). -/
def insertAscQ (x : ℚ) : List ℚ → List ℚ
  | [] => [x]
  | y :: ys => if x ≤ y then x :: y :: ys else y :: insertAscQ x ys

/-- Ascending sort of a rational array (`np.median` sorts internally). -/
def sortQ (l : List ℚ) : List ℚ := l.foldr insertAscQ []

/-- `np.median`: middle element of the sorted data for odd length, mean of
the two middle elements for even length. -/
def npMedian (l : List ℚ) : ℚ :=
  let s := sortQ l
  let n := l.length
  if n % 2 = 1 then s.getD (n / 2) 0
  else (s.getD (n / 2 - 1) 0 + s.getD (n / 2) 0) / 2

/-- Model of `np.pad(filtered, (half_window, half_window), mode=edge)` (the
program only ever pads nonempty series). -/
def paddedOf (data : List ℚ) (half : ℕ) : List ℚ :=
  List.replicate half (data.headD 0) ++ data ++
    List.replicate half (data.getLastD 0)

/-- The window `padded[i - half_window : i + half_window + 1]` of the loop,
at loop counter `i = j + half_window` (so the slice starts at `j`). -/
def filterWindow (padded : List ℚ) (window_size j : ℕ) : List ℚ :=
  (padded.drop j).take window_size

/-- `median = np.median(window)` of the filter loop. -/
def filterMedian (padded : List ℚ) (window_size j : ℕ) : ℚ :=
  npMedian (filterWindow padded window_size j)

/-- `mad = np.median(np.abs(window - median))` of the filter loop, with the
small epsilon `1e-9` substituted when the median absolute deviation is
exactly zero. -/
def filterMAD (padded : List ℚ) (window_size j : ℕ) : ℚ :=
  if npMedian ((filterWindow padded window_size j).map
      fun v => |v - filterMedian padded window_size j|) = 0
  then mkRat 1 1000000000
  else npMedian ((filterWindow padded window_size j).map
      fun v => |v - filterMedian padded window_size j|)

/-- Body of the filter loop at loop counter `i = j + half_window`:
`current_val = padded[i]`, and the conditional in-place replacement
`filtered[i - half_window] = median` when the deviation from the window
median exceeds `threshold * mad`. -/
def medianFilterStep (padded : List ℚ) (window_size : ℕ) (threshold : ℚ)
    (filtered : List ℚ) (j : ℕ) : List ℚ :=
  if |padded.getD (j + window_size / 2) 0 - filterMedian padded window_size j|
      > threshold * filterMAD padded window_size j
  then filtered.set j (filterMedian padded window_size j)
  else filtered

/-- `SP3Processor.median_outlier_filter`: raises `ValueError` on an even
window size, otherwise runs the sliding-window loop over the edge-padded
copy of the data. -/
def median_outlier_filter (data : List ℚ) (window_size : ℕ)
    (threshold : ℚ) : Except PyStr (List ℚ) :=
  if window_size % 2 = 0 then .error "Window size must be odd".toList
  else .ok ((List.range data.length).foldl
    (medianFilterStep (paddedOf data (window_size / 2)) window_size threshold)
    data)

/-! ### `SP3Processor.detrend` / `remove_trend` (lines 312-334)

`np.polyfit` is an external least-squares routine; the claims quantify over
it, so it enters the model as an explicit function parameter.  The in-place
update `x -= np.polyval(c, t)` of `detrend` is modelled with an explicit
store of array buffers, which keeps the aliasing behaviour of the Python
code observable. -/

/-- The type of `np.polyfit`: times, values, degree ↦ coefficient array
(highest degree first). -/
abbrev Polyfit := List ℚ → List ℚ → ℕ → List ℚ

/-- `np.polyval(c, t)` evaluated pointwise over `t` (Horner form). -/
def np_polyval (c : List ℚ) (t : List ℚ) : List ℚ :=
  t.map fun x => c.foldl (fun acc ci => acc * x + ci) 0

/-- `t_sec = np.array([(t - t0).total_seconds() for t in times])` with
`t0 = times[0]`. -/
def tSec (times : List Datetime) : List ℚ :=
  match times with
  | [] => []
  | t0 :: _ => times.map fun t => t.toSeconds - t0.toSeconds

/-- The residual that `SP3Processor.detrend` leaves in its argument buffer:
`x - np.polyval(np.polyfit(t, x, n), t)`. -/
def detrendResidual (polyfit : Polyfit) (t x : List ℚ) (n : ℕ) : List ℚ :=
  List.zipWith (· - ·) x (np_polyval (polyfit t x n) t)

/-- A heap of numpy array buffers, addressed by allocation index. -/
abbrev Store := List (List ℚ)

/-- Contents of buffer `h`. -/
def Store.read (s : Store) (h : ℕ) : List ℚ := s.getD h []

/-- Overwrite buffer `h` (in-place numpy mutation). -/
def Store.write (s : Store) (h : ℕ) (v : List ℚ) : Store := s.set h v

/-- Allocate a fresh buffer; returns the new store and the handle. -/
def Store.alloc (s : Store) (v : List ℚ) : Store × ℕ := (s ++ [v], s.length)

/-- `np.copy(offsets)`: allocate a fresh buffer holding a copy. -/
def np_copy (s : Store) (h : ℕ) : Store × ℕ := Store.alloc s (Store.read s h)

/-- `SP3Processor.detrend(t, x, n)`: fits, then mutates the buffer `hx`
in place (`x -= np.polyval(c, t)`) and returns the coefficient array. -/
def detrend (polyfit : Polyfit) (s : Store) (t : List ℚ) (hx : ℕ)
    (n : ℕ) : Store × List ℚ :=
  let x := Store.read s hx
  let c := polyfit t x n
  (Store.write s hx (List.zipWith (· - ·) x (np_polyval c t)), c)

/-- `SP3Processor.remove_trend(times, offsets, k)`: copies the offsets
buffer, detrends the copy in place, returns the handle of the copy and
`c[0], c[1]`. -/
def remove_trend (polyfit : Polyfit) (s : Store) (times : List Datetime)
    (hOffsets : ℕ) (k : ℕ) : Store × ℕ × ℚ × ℚ :=
  let t_sec := tSec times
  let (s1, hDetrended) := np_copy s hOffsets
  let (s2, c) := detrend polyfit s1 t_sec hDetrended k
  (s2, hDetrended, c.getD 0 0, c.getD 1 0)

/-- The two consecutive calls in `process_files` (lines 635-636):
`remove_trend(times, filtered, 1)` then `remove_trend(times, filtered, 2)`,
both on the same `filtered` buffer.  Returns the final store and the
handles of the `detrended` and `dedrifted` result buffers. -/
def detrendCalls (polyfit : Polyfit) (s : Store) (times : List Datetime)
    (hFiltered : ℕ) : Store × ℕ × ℕ :=
  let (s1, hDetrended, _, _) := remove_trend polyfit s times hFiltered 1
  let (s2, hDedrifted, _, _) := remove_trend polyfit s1 times hFiltered 2
  (s2, hDetrended, hDedrifted)

/-! ### The per-satellite pipeline of `process_files` (lines 607-647) -/

/-- The derived arrays `process_files` stores for one satellite. -/
structure SatProcessed where
  stitched : List ℚ
  filtered : List ℚ
  detrended : List ℚ
  dedrifted : List ℚ
deriving Repr

/-- The numeric pipeline applied to the series of one satellite: optional gap
stitching, the window-7 median/MAD outlier filter (threshold default 5.0),
then the degree-1 and degree-2 detrends, both from `filtered`.  `none`
models the uncaught `ValueError` of an even window size (unreachable here
since the window size is the constant 7). -/
def processSat (polyfit : Polyfit) (glueOn : Bool) (T : ℚ)
    (times : List Datetime) (offsets : List ℚ) : Option SatProcessed :=
  let stitched := if glueOn then glue T offsets else offsets
  match median_outlier_filter stitched 7 5 with
  | .error _ => none
  | .ok filtered =>
    let t_sec := tSec times
    some ⟨stitched, filtered,
          detrendResidual polyfit t_sec filtered 1,
          detrendResidual polyfit t_sec filtered 2⟩

end SP3

namespace SP3

/-! ### `PlotPSD.plot_data` power conversion (lines 1060-1085)

Octave `j` of the cascade uses the local sampling interval
`dt = 30 * 10^j` (the source initialises `dt = 30` and executes `dt *= 10`
after each octave) and reports, at every retained frequency bin, the value
`10*np.log(mult*sf[j][bin]*dt)/np.log(10)` with
`mult = 10 * np.pi**2 * f0**2 / D`, `f0 = 5e6`, `D = 512`. -/

/-- `mult = 10 * np.pi**2 * f0**2 / D` with `f0 = 5e6` and `D = 512`. -/
noncomputable def psdMult : ℝ :=
  10 * Real.pi ^ 2 * (5 * 10 ^ 6 : ℝ) ^ 2 / 512

/-- The local sampling interval of octave `j`: `dt = 30` then `dt *= 10`
per octave. -/
noncomputable def psdDt (j : ℕ) : ℝ := 30 * 10 ^ j

/-- The reported power value at one retained bin of octave `j`, where `S`
is the segment-averaged periodogram value of that octave at the bin:
`10*np.log(mult*S*dt)/np.log(10)`. -/
noncomputable def psdPower (j : ℕ) (S : ℝ) : ℝ :=
  10 * Real.log (psdMult * S * psdDt j) / Real.log 10

/-- The retained bins of one octave: `(buf >= D/30) & (buf < D/2)` over
`buf = np.arange(D)` with `D = 512`; for an integer bin `i` the float
comparison `i >= 512/30` is exactly `30*i >= 512`, and `i < 512/2` is
exactly `2*i < 512`. -/
def psdRetainedBins : List ℕ :=
  (List.range 512).filter fun i => 512 ≤ 30 * i && 2 * i < 512

end SP3

namespace SP3

/-! ### `PlotADEV.generate_tau` and the decade tau grid (lines 895-905, 931-939) -/

/-- `PlotADEV.generate_tau`: the concatenated `np.arange` blocks. -/
def generate_tau : List ℕ :=
  (List.range' 1 9 1) ++ (List.range' 10 9 10) ++ (List.range' 100 9 100) ++
  (List.range' 1000 9 1000) ++ (List.range' 10000 9 10000) ++
  (List.range' 100000 9 100000) ++ (List.range' 1000000 9 1000000)

/-- Ascending insertion of one element (helper for `sortAsc`). -/
def insertAsc (x : ℕ) : List ℕ → List ℕ
  | [] => [x]
  | y :: ys => if x ≤ y then x :: y :: ys else y :: insertAsc x ys

/-- `np.sort` (ascending) on a natural-number array, as a stable insertion
sort. -/
def sortAsc (l : List ℕ) : List ℕ := l.foldr insertAsc []

/-- The tau grid used by `PlotADEV.plot_data` in decade (non-`alltau`) mode:
`generate_tau` with 3600 and 86400 appended, then `np.sort`ed. -/
def decadeTauGrid : List ℕ :=
  sortAsc ((generate_tau ++ [3600]) ++ [86400])

end SP3

namespace SP3

/-! ### Derived observation helpers and concrete inputs used by the
theorems below -/

/-- The epoch of an epoch-header line, `none` for any other line. -/
def headerOf (line : PyStr) : Option Datetime :=
  if startsWithChar line '*' then parseEpochHeader line else none

/-- The epochs of the epoch-header lines of a file, in order. -/
def headersOf (lines : List PyStr) : List Datetime := lines.filterMap headerOf

/-- Number of samples a `parse_sp3_file` result holds for one satellite. -/
def satSampleCount (r : Sum (SatDict × Datetime) SatDict) (sat : PyStr) : ℕ :=
  match r with
  | .inl (d, _) =>
    match d.lookup sat with
    | some s => s.time.length
    | none => 0
  | .inr _ => 0

/-- A previous-file final epoch of 2023-01-02 00:00:00. -/
def overlapPrev : Datetime := ⟨2023, 1, 2, 0, 0, 0⟩

/-- A second file whose two epochs (2023-01-01 00:00 and 2023-01-01 12:00)
both precede `overlapPrev`. -/
def overlapLines : List PyStr :=
  ["*  2023 1 1 0 0 0.00000000".toList,
   "PG01 1 2 3 4".toList,
   "*  2023 1 1 12 0 0.00000000".toList,
   "PG01 1 2 3 5".toList]

/-- A file with a well-formed epoch header and data record followed by an
epoch-header line whose seconds field `x.0` is not numeric. -/
def badHeaderLines : List PyStr :=
  ["*  2023 1 1 0 0 0.00000000".toList,
   "PG01 1 2 3 4".toList,
   "*  2023 1 1 0 15 x.0".toList]

/-- A processing list whose first file is unreadable (its `open` raises)
and whose second file is well-formed. -/
def crashFiles : List (Except PyStr (List PyStr)) :=
  [.error "unreadable".toList,
   .ok ["*  2023 1 1 0 0 0.00000000".toList, "PG01 1 2 3 4".toList]]

/-- C9 expected grid, written out value by value. -/
def decadeTauGridExplicit : List ℕ :=
  [1, 2, 3, 4, 5, 6, 7, 8, 9,
   10, 20, 30, 40, 50, 60, 70, 80, 90,
   100, 200, 300, 400, 500, 600, 700, 800, 900,
   1000, 2000, 3000, 3600, 4000, 5000, 6000, 7000, 8000, 9000,
   10000, 20000, 30000, 40000, 50000, 60000, 70000, 80000, 86400, 90000,
   100000, 200000, 300000, 400000, 500000, 600000, 700000, 800000, 900000,
   1000000, 2000000, 3000000, 4000000, 5000000, 6000000, 7000000, 8000000,
   9000000]

/-- C9: The decade tau grid used for marker-annotated Allan-deviation curves
consists exactly of the values 1-9 step 1, 10-90 step 10, 100-900 step 100,
1000-9000 step 1000, 10000-90000 step 10000, 100000-900000 step 100000 and
1000000-9000000 step 1000000, with the literal values 3600 and 86400
additionally inserted, and the resulting grid is sorted in ascending
order. -/
theorem C9_decade_tau_grid :
    decadeTauGrid = decadeTauGridExplicit ∧
    List.Sorted (· ≤ ·) decadeTauGrid := by
  decide

/-- C6: For every octave `j` and every retained frequency bin of the PSD
estimator, the reported power value equals
`L(f) = 10 log10((10 π² f0² / segment_length) S(f) dt_j)` with `f0 = 5e6`,
`segment_length = 512`, `S(f)` the segment-averaged periodogram value of
that octave at the bin and `dt_j = 30 · 10^j` the local sampling
interval. -/
theorem C6_psd_power_conversion (j : ℕ) (S : ℕ → ℝ) (i : ℕ)
    (_hi : i ∈ psdRetainedBins) :
    psdPower j (S i) =
      10 * Real.logb 10
        ((10 * Real.pi ^ 2 * (5 * 10 ^ 6 : ℝ) ^ 2 / 512) * S i *
          (30 * (10 : ℝ) ^ j)) := by
  unfold psdPower psdMult psdDt Real.logb
  ring

set_option maxRecDepth 8000 in
/-- Witness for C6 at octave 0, bin 18, unit periodogram value. -/
theorem C6_psd_power_conversion_witness :
    18 ∈ psdRetainedBins ∧
    psdPower 0 1 =
      10 * Real.logb 10
        ((10 * Real.pi ^ 2 * (5 * 10 ^ 6 : ℝ) ^ 2 / 512) * 1 *
          (30 * (10 : ℝ) ^ (0 : ℕ))) :=
  ⟨by decide, C6_psd_power_conversion 0 (fun _ => 1) 18 (by decide)⟩

/-- C10: a line that starts with `P` but splits into fewer than five
whitespace-separated fields is silently ignored: the parser state is
returned unchanged (no sample appended for any satellite) and no exception
is raised. -/
theorem C10_short_P_line_ignored (st : ParseState) (line : PyStr)
    (hstar : startsWithChar line '*' = false)
    (hP : startsWithChar line 'P' = true)
    (hlen : (pySplit line).length < 5) :
    processLine st line = .ok st := by
  have hge : ¬ (pySplit line).length ≥ 5 := Nat.not_le.mpr hlen
  cases hltb : Datetime.ltb st.prev st.current with
  | false => simp [processLine, hstar, hP, hltb]
  | true => simp [processLine, hstar, hP, hltb, hge]

/-- Witness for C10 on the line `PG01 1 2`. -/
theorem C10_short_P_line_ignored_witness :
    startsWithChar "PG01 1 2".toList '*' = false ∧
    startsWithChar "PG01 1 2".toList 'P' = true ∧
    (pySplit "PG01 1 2".toList).length < 5 ∧
    processLine ⟨[], epoch1980, epoch1980⟩ "PG01 1 2".toList =
      .ok ⟨[], epoch1980, epoch1980⟩ :=
  ⟨by decide, by decide, by decide,
   C10_short_P_line_ignored ⟨[], epoch1980, epoch1980⟩ "PG01 1 2".toList
     (by decide) (by decide) (by decide)⟩

/-- C2 (code bug): a file list whose first file is unreadable makes the
file loop of `process_files` crash instead of continuing: `parse_sp3_file`
returns the single value `{}`, the caller unpacks it into two names,
and the resulting `ValueError` is uncaught, so the well-formed second file
is never processed and no satellite receives its data. -/
theorem C2_file_error_crashes_processing :
    collectFiles crashFiles ["G01".toList] = none := by
  decide

/-- C3 counterexample: `badHeaderLines` contains one well-formed data
record (its clock-offset field parses), yet because the later epoch-header
line has a malformed numeric field the whole file is aborted and
`parse_sp3_file` returns the empty dict: the sample from the well-formed
line is not returned, contradicting the claim that only the malformed line
fails. -/
theorem C3_counterexample :
    (((pySplit ("PG01 1 2 3 4".toList))[4]?).bind pyFloat).isSome = true ∧
    parseEpochHeader ("*  2023 1 1 0 15 x.0".toList) = none ∧
    parse_sp3_file (.ok badHeaderLines) epoch1980 = .inr [] := by
  refine ⟨by decide, by decide, by decide⟩

/-- C3 (amended): a malformed numeric clock-offset field in a
position/clock line fails only that line — the parser state is returned
unchanged and the rest of the file continues — while a malformed numeric
field in an epoch-header line raises out of the line loop and aborts the
whole file (the file-level error path). -/
theorem C3_parse_error_scope :
    (∀ (st : ParseState) (line : PyStr),
      startsWithChar line '*' = false →
      startsWithChar line 'P' = true →
      (pySplit line).length ≥ 5 →
      ((pySplit line)[4]?).bind pyFloat = none →
      processLine st line = .ok st) ∧
    (∀ (st : ParseState) (line : PyStr),
      startsWithChar line '*' = true →
      parseEpochHeader line = none →
      processLine st line = .error ()) := by
  constructor
  · intro st line hstar hP hlen hbad
    cases hltb : Datetime.ltb st.prev st.current with
    | false => simp [processLine, hstar, hP, hltb]
    | true => simp [processLine, hstar, hP, hltb, hlen, hbad]
  · intro st line hstar hbad
    simp [processLine, hstar, hbad]

/-- Witness for C3 (amended): the malformed record `PG01 1 2 3 abc` is
skipped with the state unchanged, and the malformed header
`*  2023 1 1 0 15 x.0` aborts the file. -/
theorem C3_parse_error_scope_witness :
    processLine ⟨[], epoch1980, epoch1980⟩ "PG01 1 2 3 abc".toList =
      .ok ⟨[], epoch1980, epoch1980⟩ ∧
    processLine ⟨[], epoch1980, epoch1980⟩ "*  2023 1 1 0 15 x.0".toList =
      .error () :=
  ⟨C3_parse_error_scope.1 ⟨[], epoch1980, epoch1980⟩ _
      (by decide) (by decide) (by decide) (by decide),
   C3_parse_error_scope.2 ⟨[], epoch1980, epoch1980⟩ _
      (by decide) (by decide)⟩

/-- The Python datetime comparison is irreflexive. -/
theorem Datetime.ltb_irrefl (a : Datetime) : Datetime.ltb a a = false := by
  simp [Datetime.ltb]

/-- Invariant of the parsing loop: as long as each epoch header is ≤ its
predecessor (seeded with the initial state), every record line is rejected,
so the data dictionary never grows; the final `current_epoch` is the last
header (or the initial one when the file has no headers). -/
theorem parseLoop_nonincreasing (lines : List PyStr) :
    ∀ st : ParseState,
      (∀ line ∈ lines, startsWithChar line '*' = true →
        (headerOf line).isSome) →
      Datetime.ltb st.prev st.current = false →
      List.Chain (fun a b => Datetime.ltb a b = false) st.current
        (headersOf lines) →
      ∃ st' : ParseState,
        lines.foldlM processLine st = .ok st' ∧
        st'.data = st.data ∧
        st'.current = (headersOf lines).getLastD st.current := by
  induction lines with
  | nil => exact fun st _ _ _ => ⟨st, rfl, rfl, rfl⟩
  | cons line rest ih =>
    intro st hok hpc hchain
    cases hstar : startsWithChar line '*' with
    | true =>
      obtain ⟨h, hh⟩ := Option.isSome_iff_exists.mp
        (hok line (List.mem_cons_self _ _) hstar)
      have hdr : parseEpochHeader line = some h := by
        unfold headerOf at hh
        rw [hstar] at hh
        simpa using hh
      have hstep : processLine st line = .ok ⟨st.data, h, st.current⟩ := by
        simp [processLine, hstar, hdr]
      have hhd : headersOf (line :: rest) = h :: headersOf rest := by
        simp [headersOf, headerOf, hstar, hdr]
      rw [hhd] at hchain
      cases hchain with
      | cons hR hchain2 =>
        obtain ⟨st', h1, h2, h3⟩ := ih ⟨st.data, h, st.current⟩
          (fun l hl hs => hok l (List.mem_cons_of_mem _ hl) hs)
          (by simpa using hR) (by simpa using hchain2)
        refine ⟨st', ?_, by simpa using h2, ?_⟩
        · rw [List.foldlM_cons, hstep]
          simpa using h1
        · rw [hhd, List.getLastD_cons]
          simpa using h3
    | false =>
      have hstep : processLine st line = .ok st := by
        simp [processLine, hstar, hpc]
      have hhd : headersOf (line :: rest) = headersOf rest := by
        simp [headersOf, headerOf, hstar]
      rw [hhd] at hchain
      obtain ⟨st', h1, h2, h3⟩ := ih st
        (fun l hl hs => hok l (List.mem_cons_of_mem _ hl) hs) hpc hchain
      refine ⟨st', ?_, h2, ?_⟩
      · rw [List.foldlM_cons, hstep]
        simpa using h1
      · rw [hhd]
        exact h3

/-- C1 counterexample: with a previous-file final epoch of
2023-01-02 00:00:00, the file `overlapLines` has every epoch strictly
before that epoch (none is greater), yet parsing it contributes one sample
for satellite `G01` — not zero, as the claim requires. -/
theorem C1_cross_file_counterexample :
    (∀ h ∈ headersOf overlapLines, Datetime.ltb overlapPrev h = false) ∧
    satSampleCount (parse_sp3_file (.ok overlapLines) overlapPrev)
      "G01".toList = 1 := by
  exact ⟨by decide, by decide⟩

/-- C1 (amended): a data record is accepted if and only if the current
epoch header is strictly greater than the *immediately preceding* epoch
header — which equals the previous-file final epoch only for records under
the first header of the file.  Consequently a second file contributes zero
samples when its epoch-header sequence, seeded with the final epoch of the
first file, is non-increasing (not whenever all its epochs are ≤ that
epoch, as the counterexample shows). -/
theorem C1_record_acceptance :
    (∀ (st : ParseState) (line : PyStr) (v : ℚ),
      startsWithChar line '*' = false →
      startsWithChar line 'P' = true →
      (pySplit line).length ≥ 5 →
      ((pySplit line)[4]?).bind pyFloat = some v →
      processLine st line = .ok
        (if Datetime.ltb st.prev st.current then
          ⟨dictAppend st.data (((pySplit line).headD []).drop 1) st.current
              (v * (1 / 1000000)), st.current, st.prev⟩
        else st)) ∧
    (∀ (prev0 : Datetime) (lines : List PyStr),
      (∀ line ∈ lines, startsWithChar line '*' = true →
        (headerOf line).isSome) →
      List.Chain (fun a b => Datetime.ltb a b = false) prev0
        (headersOf lines) →
      parse_sp3_file (.ok lines) prev0 =
        .inl ([], (headersOf lines).getLastD prev0)) := by
  constructor
  · intro st line v hstar hP hlen hv
    cases hltb : Datetime.ltb st.prev st.current with
    | true => simp [processLine, hstar, hP, hltb, hlen, hv]
    | false => simp [processLine, hstar, hP, hltb]
  · intro prev0 lines hok hchain
    obtain ⟨st', h1, h2, h3⟩ := parseLoop_nonincreasing lines ⟨[], prev0, prev0⟩
      hok (Datetime.ltb_irrefl prev0) (by simpa using hchain)
    simp only [parse_sp3_file]
    rw [h1]
    simp [h2, h3]

/-- Witness for C1 (amended): an accepted record under a rising header and
a file with a single header not exceeding the previous-file final epoch
contributing nothing. -/
theorem C1_record_acceptance_witness :
    processLine ⟨[], ⟨2023, 1, 1, 0, 0, 0⟩, epoch1980⟩ "PG01 1 2 3 4".toList =
      .ok
        (if Datetime.ltb epoch1980 ⟨2023, 1, 1, 0, 0, 0⟩ then
          ⟨dictAppend [] (((pySplit "PG01 1 2 3 4".toList).headD []).drop 1)
              ⟨2023, 1, 1, 0, 0, 0⟩ ((4 : ℚ) * (1 / 1000000)),
            ⟨2023, 1, 1, 0, 0, 0⟩, epoch1980⟩
        else ⟨[], ⟨2023, 1, 1, 0, 0, 0⟩, epoch1980⟩) ∧
    parse_sp3_file (.ok ["*  2022 1 1 0 0 0.00000000".toList]) overlapPrev =
      .inl ([], (headersOf ["*  2022 1 1 0 0 0.00000000".toList]).getLastD
        overlapPrev) :=
  ⟨C1_record_acceptance.1 ⟨[], ⟨2023, 1, 1, 0, 0, 0⟩, epoch1980⟩ _ 4
      (by decide) (by decide) (by decide) (by decide),
   C1_record_acceptance.2 overlapPrev _ (by decide)
      (List.Chain.cons (by decide) List.Chain.nil)⟩

/-- Length preservation of the stitching worker. -/
theorem glueAux_length (T : ℚ) (ys : List ℚ) :
    ∀ (delta prev : ℚ), (glueAux T delta prev ys).length = ys.length := by
  induction ys with
  | nil => intro delta prev; rfl
  | cons y rest ih =>
    intro delta prev
    by_cases hd : |y - prev| > T <;>
      simp [glueAux, hd, ih]

/-- Shifting the initial running correction shifts every output element. -/
theorem glueAux_shift (T : ℚ) (ys : List ℚ) :
    ∀ (a b prev : ℚ),
      glueAux T (a + b) prev ys =
        (glueAux T b prev ys).map (fun z => z - a) := by
  induction ys with
  | nil => intro a b prev; rfl
  | cons y rest ih =>
    intro a b prev
    by_cases hd : |y - prev| > T
    · simp only [glueAux, if_pos hd, List.map_cons, add_assoc, ih]
      exact List.cons_eq_cons.mpr ⟨by ring, rfl⟩
    · simp only [glueAux, if_neg hd, List.map_cons, ih]
      exact List.cons_eq_cons.mpr ⟨by ring, rfl⟩

/-- The stitching worker with correction `a` is the worker with correction
zero, shifted by `a`. -/
theorem glueAux_eq_map (T a prev : ℚ) (ys : List ℚ) :
    glueAux T a prev ys = (glueAux T 0 prev ys).map (fun z => z - a) := by
  have h := glueAux_shift T ys a 0 prev
  rwa [add_zero] at h

/-- Value of `getD` through `map` inside the list. -/
theorem getD_map_lt (f : ℚ → ℚ) (l : List ℚ) (i : ℕ) (h : i < l.length) :
    (l.map f).getD i 0 = f (l.getD i 0) := by
  rw [List.getD_eq_getElem l 0 h,
      List.getD_eq_getElem (l.map f) 0 (by simpa using h),
      List.getElem_map]

/-- One more step of the jump accumulator. -/
theorem jumpSum_succ (T : ℚ) (x : List ℚ) (i : ℕ) :
    jumpSum T x (i + 1) = jumpSum T x i +
      (if |x.getD (i + 1) 0 - x.getD i 0| > T then
        x.getD (i + 1) 0 - x.getD i 0 else 0) := by
  unfold jumpSum
  rw [List.range_succ, List.map_append, List.sum_append]
  simp

/-- Shifting the series by one element shifts the jump accumulator. -/
theorem jumpSum_cons (T p y : ℚ) (rest : List ℚ) (m : ℕ) :
    jumpSum T (p :: y :: rest) (m + 1) =
      (if |y - p| > T then y - p else 0) + jumpSum T (y :: rest) m := by
  unfold jumpSum
  rw [List.range_succ_eq_map]
  simp [List.map_map, Function.comp_def, List.getD_cons_succ,
    List.getD_cons_zero]

/-- Pointwise description of the stitching worker started with correction
zero and virtual previous element `p`. -/
theorem glueAux_getD (T : ℚ) (ys : List ℚ) :
    ∀ (p : ℚ) (i : ℕ), i < ys.length →
      (glueAux T 0 p ys).getD i 0 =
        ys.getD i 0 - jumpSum T (p :: ys) (i + 1) := by
  induction ys with
  | nil => intro p i hi; cases hi
  | cons y rest ih =>
    intro p i hi
    cases i with
    | zero =>
      have h0 : jumpSum T (y :: rest) 0 = 0 := by simp [jumpSum]
      have h1 : jumpSum T (p :: y :: rest) (0 + 1) =
          (if |y - p| > T then y - p else 0) + jumpSum T (y :: rest) 0 :=
        jumpSum_cons T p y rest 0
      by_cases hd : |y - p| > T
      · simp only [glueAux, if_pos hd, List.getD_cons_zero, h1, h0, if_pos hd]
        ring
      · simp only [glueAux, if_neg hd, List.getD_cons_zero, h1, h0, if_neg hd]
        ring
    | succ i =>
      have hi2 : i < rest.length := Nat.lt_of_succ_lt_succ hi
      have hlen : i < (glueAux T 0 y rest).length := by
        rw [glueAux_length]; exact hi2
      by_cases hd : |y - p| > T
      · rw [jumpSum_cons, if_pos hd]
        simp only [glueAux, if_pos hd, List.getD_cons_succ, zero_add]
        rw [glueAux_eq_map, getD_map_lt _ _ _ hlen, ih y i hi2]
        ring
      · rw [jumpSum_cons, if_neg hd]
        simp only [glueAux, if_neg hd, List.getD_cons_succ]
        rw [ih y i hi2]
        ring

/-- Closed form of the stitching loop: element `i` of the output is the
original element minus the sum of all over-threshold increments before
it. -/
theorem glue_getD (T : ℚ) (x : List ℚ) (i : ℕ) (hi : i < x.length) :
    (glue T x).getD i 0 = x.getD i 0 - jumpSum T x i := by
  cases x with
  | nil => cases hi
  | cons x0 rest =>
    cases i with
    | zero => simp [glue, jumpSum]
    | succ i =>
      have hi2 : i < rest.length := Nat.lt_of_succ_lt_succ hi
      simp only [glue, List.getD_cons_succ]
      exact glueAux_getD T rest x0 i hi2

/-- Under a single-jump hypothesis the accumulator is a step function. -/
theorem jumpSum_single_jump (T : ℚ) (x : List ℚ) (k : ℕ)
    (hJ : |x.getD (k + 1) 0 - x.getD k 0| > T)
    (hother : ∀ j < x.length, j ≠ k → j + 1 < x.length →
      |x.getD (j + 1) 0 - x.getD j 0| ≤ T) :
    ∀ i < x.length, jumpSum T x i =
      if k < i then x.getD (k + 1) 0 - x.getD k 0 else 0 := by
  intro i
  induction i with
  | zero => intro _; simp [jumpSum]
  | succ i ih =>
    intro hi1
    have hi : i < x.length := Nat.lt_of_succ_lt hi1
    rw [jumpSum_succ, ih hi]
    by_cases hik : i = k
    · subst hik
      rw [if_neg (lt_irrefl i), if_pos (Nat.lt_succ_self i), if_pos hJ,
        zero_add]
    · have hterm : ¬ |x.getD (i + 1) 0 - x.getD i 0| > T :=
        not_lt.mpr (hother i hi hik hi1)
      rw [if_neg hterm, add_zero]
      by_cases hki : k < i
      · rw [if_pos hki, if_pos (Nat.lt_succ_of_lt hki)]
      · rw [if_neg hki, if_neg (by omega)]

/-- C5: the stitching loop subtracts the accumulated sum of all
over-threshold jumps from every subsequent sample (the correction is never
reset), and in particular a series with a single step of magnitude greater
than the threshold between consecutive samples has that step removed
completely: after the step every sample equals the original minus the full
jump, before it every sample is unchanged. -/
theorem C5_gap_stitching :
    (∀ (T : ℚ) (x : List ℚ) (i : ℕ), i < x.length →
      (glue T x).getD i 0 = x.getD i 0 - jumpSum T x i) ∧
    (∀ (T : ℚ) (x : List ℚ) (k : ℕ),
      k + 1 < x.length →
      |x.getD (k + 1) 0 - x.getD k 0| > T →
      (∀ j < x.length, j ≠ k → j + 1 < x.length →
        |x.getD (j + 1) 0 - x.getD j 0| ≤ T) →
      ∀ i < x.length,
        (glue T x).getD i 0 =
          if i ≤ k then x.getD i 0
          else x.getD i 0 - (x.getD (k + 1) 0 - x.getD k 0)) := by
  constructor
  · exact glue_getD
  · intro T x k _hk hJ hother i hi
    rw [glue_getD T x i hi, jumpSum_single_jump T x k hJ hother i hi]
    by_cases hik : i ≤ k
    · rw [if_neg (not_lt.mpr hik), if_pos hik, sub_zero]
    · rw [if_pos (not_le.mp hik), if_neg hik]

/-- Witness for C5: series `[0, 0, 10, 10]`, threshold 1, jump at index 1;
the sample after the step equals the original minus the full jump. -/
theorem C5_gap_stitching_witness :
    (glue 1 [0, 0, 10, 10]).getD 3 0 =
      (if (3 : ℕ) ≤ 1 then ([0, 0, 10, 10] : List ℚ).getD 3 0
       else ([0, 0, 10, 10] : List ℚ).getD 3 0 -
         (([0, 0, 10, 10] : List ℚ).getD 2 0 -
           ([0, 0, 10, 10] : List ℚ).getD 1 0)) :=
  C5_gap_stitching.2 1 [0, 0, 10, 10] 1 (by decide)
    (by with_unfolding_all decide)
    (by with_unfolding_all decide) 3 (by decide)

/-- One filter step never changes the array length. -/
theorem medianFilterStep_length (padded : List ℚ) (w : ℕ) (θ : ℚ)
    (l : List ℚ) (j : ℕ) :
    (medianFilterStep padded w θ l j).length = l.length := by
  unfold medianFilterStep
  split <;> simp

/-- The filter loop never changes the array length. -/
theorem filterLoop_length (padded : List ℚ) (w : ℕ) (θ : ℚ) :
    ∀ (n : ℕ) (l : List ℚ),
      ((List.range n).foldl (medianFilterStep padded w θ) l).length =
        l.length := by
  intro n
  induction n with
  | zero => intro l; rfl
  | succ n ih =>
    intro l
    rw [List.range_succ, List.foldl_append, List.foldl_cons, List.foldl_nil,
      medianFilterStep_length, ih]

/-- Loop iterations do not touch indices that are not yet reached. -/
theorem filterLoop_getD_ge (padded : List ℚ) (w : ℕ) (θ : ℚ) :
    ∀ (n : ℕ) (l : List ℚ) (i : ℕ), n ≤ i →
      ((List.range n).foldl (medianFilterStep padded w θ) l).getD i 0 =
        l.getD i 0 := by
  intro n
  induction n with
  | zero => intro l i _; rfl
  | succ n ih =>
    intro l i hi
    rw [List.range_succ, List.foldl_append, List.foldl_cons, List.foldl_nil]
    have hne : n ≠ i := by omega
    rw [medianFilterStep]
    split
    · rw [List.getD_eq_getElem?_getD, List.getElem?_set_ne hne,
        ← List.getD_eq_getElem?_getD]
      exact ih l i (by omega)
    · exact ih l i (by omega)

/-- Each position of the filter output is decided once, by its own loop
iteration, reading only the fixed padded array. -/
theorem filterLoop_getD_lt (padded : List ℚ) (w : ℕ) (θ : ℚ) :
    ∀ (n : ℕ) (l : List ℚ) (i : ℕ), i < n → i < l.length →
      ((List.range n).foldl (medianFilterStep padded w θ) l).getD i 0 =
        if |padded.getD (i + w / 2) 0 - filterMedian padded w i| >
            θ * filterMAD padded w i
        then filterMedian padded w i
        else l.getD i 0 := by
  intro n
  induction n with
  | zero => intro l i hi; exact absurd hi (Nat.not_lt_zero i)
  | succ n ih =>
    intro l i hi hil
    rw [List.range_succ, List.foldl_append, List.foldl_cons, List.foldl_nil]
    by_cases hin : i = n
    · subst hin
      have hprev := filterLoop_getD_ge padded w θ i l i le_rfl
      have hlen : i <
          ((List.range i).foldl (medianFilterStep padded w θ) l).length := by
        rw [filterLoop_length]; exact hil
      rw [medianFilterStep]
      by_cases hc : |padded.getD (i + w / 2) 0 - filterMedian padded w i| >
          θ * filterMAD padded w i
      · rw [if_pos hc, if_pos hc, List.getD_eq_getElem?_getD,
          List.getElem?_set_self hlen]
        rfl
      · rw [if_neg hc, if_neg hc, hprev]
    · have hi2 : i < n := by omega
      rw [medianFilterStep]
      by_cases hc : |padded.getD (n + w / 2) 0 - filterMedian padded w n| >
          θ * filterMAD padded w n
      · rw [if_pos hc, List.getD_eq_getElem?_getD,
          List.getElem?_set_ne (by omega : n ≠ i),
          ← List.getD_eq_getElem?_getD, ih l i hi2 hil]
      · rw [if_neg hc, ih l i hi2 hil]

/-- Reading the padded array at `i + half` is reading the original data at
`i`. -/
theorem paddedOf_getD_mid (data : List ℚ) (half i : ℕ)
    (hi : i < data.length) :
    (paddedOf data half).getD (i + half) 0 = data.getD i 0 := by
  unfold paddedOf
  rw [List.append_assoc,
    List.getD_append_right _ _ _ _ (by rw [List.length_replicate]; omega)]
  simp only [List.length_replicate, Nat.add_sub_cancel]
  rw [List.getD_append _ _ _ _ hi]

/-- Reading a mapped range list below its length. -/
theorem range_map_getD (n : ℕ) (f : ℕ → ℚ) (i : ℕ) (hi : i < n) :
    ((List.range n).map f).getD i 0 = f i := by
  rw [List.getD_eq_getElem _ _ (by simpa using hi), List.getElem_map,
    List.getElem_range]

/-- C4: for every series, odd window size and threshold, the filter returns
an array of the same length in which position `i` is the median of the
width-`w` centred edge-padded window of the original input when
`|x_i - m_i|` exceeds `threshold × MAD_i` (MAD zero replaced by `1e-9`),
and `x_i` itself otherwise; all windows are windows of the original padded
array, so replacements never feed back into later windows. -/
theorem C4_median_outlier_filter (data : List ℚ) (w : ℕ) (θ : ℚ)
    (hw : w % 2 = 1) :
    median_outlier_filter data w θ =
      .ok ((List.range data.length).map fun i =>
        if |data.getD i 0 - filterMedian (paddedOf data (w / 2)) w i| >
            θ * filterMAD (paddedOf data (w / 2)) w i
        then filterMedian (paddedOf data (w / 2)) w i
        else data.getD i 0) := by
  unfold median_outlier_filter
  rw [if_neg (by omega), Except.ok.injEq]
  apply List.ext_getElem
  · rw [filterLoop_length]
    simp
  · intro i h1 h2
    have hi : i < data.length := by rwa [filterLoop_length] at h1
    rw [← List.getD_eq_getElem _ 0 h1, ← List.getD_eq_getElem _ 0 h2,
      filterLoop_getD_lt _ _ _ _ _ _ hi hi, range_map_getD _ _ _ hi,
      paddedOf_getD_mid data (w / 2) i hi]

/-- Witness for C4: window 3, threshold 5 on `[0, 0, 100, 0, 0]` replaces
the outlier by its window median and keeps everything else. -/
theorem C4_median_outlier_filter_witness :
    median_outlier_filter [0, 0, 100, 0, 0] 3 5 = .ok [0, 0, 0, 0, 0] := by
  rw [C4_median_outlier_filter [0, 0, 100, 0, 0] 3 5 (by decide),
    Except.ok.injEq]
  with_unfolding_all decide

/-- Reading below an appended suffix sees the original buffer. -/
theorem Store.read_append_lt (s t : Store) (h : ℕ) (hh : h < s.length) :
    Store.read (s ++ t) h = Store.read s h := by
  unfold Store.read
  rw [List.getD_append _ _ _ _ hh]

/-- Reading the first appended buffer. -/
theorem Store.read_append_head (s : Store) (v : List ℚ) (t : Store) :
    Store.read (s ++ v :: t) s.length = v := by
  unfold Store.read
  rw [List.getD_append_right _ _ _ _ le_rfl, Nat.sub_self]
  rfl

/-- Reading the second appended buffer. -/
theorem Store.read_append_second (s : Store) (v w : List ℚ) (t : Store) :
    Store.read (s ++ v :: w :: t) (s.length + 1) = w := by
  unfold Store.read
  rw [List.getD_append_right _ _ _ _ (by omega)]
  have h1 : s.length + 1 - s.length = 1 := by omega
  rw [h1]
  rfl

/-- Writing to the first appended buffer replaces exactly it. -/
theorem Store.write_append (s : Store) (v : List ℚ) (t : Store)
    (w : List ℚ) :
    Store.write (s ++ v :: t) s.length w = s ++ w :: t := by
  unfold Store.write
  induction s with
  | nil => rfl
  | cons a s ih => simp only [List.cons_append, List.length_cons,
      List.set_cons_succ, ih]

/-- Explicit form of one `remove_trend` call: it allocates a copy of the
argument buffer, detrends the copy in place, and leaves every existing
buffer untouched. -/
theorem remove_trend_eq (polyfit : Polyfit) (s : Store)
    (times : List Datetime) (h k : ℕ) :
    remove_trend polyfit s times h k =
      (s ++ [detrendResidual polyfit (tSec times) (Store.read s h) k],
       s.length,
       (polyfit (tSec times) (Store.read s h) k).getD 0 0,
       (polyfit (tSec times) (Store.read s h) k).getD 1 0) := by
  simp only [remove_trend, np_copy, Store.alloc, detrend, detrendResidual]
  rw [Store.read_append_head, Store.write_append]

/-- Explicit form of the two `remove_trend` calls of `process_files`: two
fresh result buffers, both residuals of the same original `filtered`
contents, with the `filtered` buffer itself untouched. -/
theorem detrendCalls_eq (polyfit : Polyfit) (s : Store)
    (times : List Datetime) (hF : ℕ) (h : hF < s.length) :
    detrendCalls polyfit s times hF =
      (s ++ [detrendResidual polyfit (tSec times) (Store.read s hF) 1,
             detrendResidual polyfit (tSec times) (Store.read s hF) 2],
       s.length, s.length + 1) := by
  simp only [detrendCalls, remove_trend_eq]
  rw [Store.read_append_lt s _ hF h]
  simp

/-- C7: the degree-1 and degree-2 residuals are each computed directly from
the same `filtered` buffer contents (not chained one after the other), and
neither call changes the `filtered` buffer itself: each `detrend` operates
on a fresh copy. -/
theorem C7_detrend_independence (polyfit : Polyfit) (s : Store)
    (times : List Datetime) (hF : ℕ) (h : hF < s.length) :
    Store.read (detrendCalls polyfit s times hF).1 hF = Store.read s hF ∧
    Store.read (detrendCalls polyfit s times hF).1
        (detrendCalls polyfit s times hF).2.1 =
      detrendResidual polyfit (tSec times) (Store.read s hF) 1 ∧
    Store.read (detrendCalls polyfit s times hF).1
        (detrendCalls polyfit s times hF).2.2 =
      detrendResidual polyfit (tSec times) (Store.read s hF) 2 := by
  rw [detrendCalls_eq polyfit s times hF h]
  exact ⟨Store.read_append_lt s _ hF h,
    Store.read_append_head s _ _,
    Store.read_append_second s _ _ _⟩

/-- Witness for C7: a one-buffer store holding `[1]`, the trivial
polynomial fit. -/
theorem C7_detrend_independence_witness :
    Store.read (detrendCalls (fun _ _ _ => []) [[1]] [] 0).1 0 = [1] ∧
    Store.read (detrendCalls (fun _ _ _ => []) [[1]] [] 0).1
        (detrendCalls (fun _ _ _ => []) [[1]] [] 0).2.1 = [] ∧
    Store.read (detrendCalls (fun _ _ _ => []) [[1]] [] 0).1
        (detrendCalls (fun _ _ _ => []) [[1]] [] 0).2.2 = [] := by
  have h := C7_detrend_independence (fun _ _ _ => []) [[1]] [] 0 (by decide)
  exact ⟨h.1.trans (by decide), h.2.1.trans (by decide),
    h.2.2.trans (by decide)⟩

/-- The stitching loop preserves length. -/
theorem glue_length (T : ℚ) (x : List ℚ) : (glue T x).length = x.length := by
  cases x with
  | nil => rfl
  | cons x0 rest => simp [glue, glueAux_length]

/-- Elapsed-seconds conversion preserves length. -/
theorem tSec_length (times : List Datetime) :
    (tSec times).length = times.length := by
  cases times <;> simp [tSec]

/-- Polynomial evaluation preserves the length of the time axis. -/
theorem np_polyval_length (c t : List ℚ) :
    (np_polyval c t).length = t.length := by
  simp [np_polyval]

/-- Length of the detrend residual. -/
theorem detrendResidual_length (polyfit : Polyfit) (t x : List ℚ) (k : ℕ) :
    (detrendResidual polyfit t x k).length = min x.length t.length := by
  simp [detrendResidual, np_polyval_length]

/-- C8: every pipeline stage preserves series length and index alignment:
the stitched offsets, the filtered offsets and the degree-1 and degree-2
residuals all have the same length as the original offset series (equal to
the length of the epoch series). -/
theorem C8_pipeline_length_alignment (polyfit : Polyfit) (glueOn : Bool)
    (T : ℚ) (times : List Datetime) (offsets : List ℚ)
    (hlen : times.length = offsets.length) (_hne : offsets ≠ []) :
    ∃ r : SatProcessed,
      processSat polyfit glueOn T times offsets = some r ∧
      r.stitched.length = offsets.length ∧
      r.filtered.length = offsets.length ∧
      r.detrended.length = offsets.length ∧
      r.dedrifted.length = offsets.length := by
  have hst : (if glueOn then glue T offsets else offsets).length =
      offsets.length := by
    cases glueOn <;> simp [glue_length]
  have hsev : ∀ d : List ℚ, median_outlier_filter d 7 5 =
      .ok ((List.range d.length).foldl
        (medianFilterStep (paddedOf d (7 / 2)) 7 5) d) := by
    intro d
    unfold median_outlier_filter
    rw [if_neg (by decide)]
  unfold processSat
  dsimp only
  rw [hsev]
  refine ⟨_, rfl, hst, ?_, ?_, ?_⟩
  · rw [filterLoop_length]
    exact hst
  · rw [detrendResidual_length, filterLoop_length, hst, tSec_length, hlen,
      Nat.min_self]
  · rw [detrendResidual_length, filterLoop_length, hst, tSec_length, hlen,
      Nat.min_self]

/-- Witness for C8 on a one-sample series. -/
theorem C8_pipeline_length_alignment_witness :
    ∃ r : SatProcessed,
      processSat (fun _ _ _ => []) true 1 [epoch1980] [0] = some r ∧
      r.stitched.length = 1 ∧
      r.filtered.length = 1 ∧
      r.detrended.length = 1 ∧
      r.dedrifted.length = 1 :=
  C8_pipeline_length_alignment (fun _ _ _ => []) true 1 [epoch1980] [0]
    (by decide) (by decide)

end SP3
